import Mathlib

/-!
Verification of the jobs-API data-access layer: the Job store
(`models/Job.js`), the User store (`models/User.js`) and token issuance,
shallowly embedded over explicit table states (lists of rows).
-/

set_option maxHeartbeats 1000000

/-- A row of the `jobs` table (schema from `Job.initTable`).  Timestamps are
modelled as natural-number clock readings. -/
structure Job where
  id : Nat
  role : String
  company : String
  status : String
  created_by : Nat
  created_at : Nat
  updated_at : Nat
deriving Repr, DecidableEq

/-- The `WHERE id = jobId AND created_by = userId` predicate shared by
`getSingleJob`, `updateJob` and `deleteJob`. -/
def jobMatches (jobId userId : Nat) (j : Job) : Bool :=
  j.id == jobId && j.created_by == userId

/-- Model of `getSingleJob({jobId, userId})`: `where({id, created_by}).first()` —
the first row of the table matching both id and owner, or `none`. -/
def getSingleJob (db : List Job) (jobId userId : Nat) : Option Job :=
  db.find? (jobMatches jobId userId)

/-- The JS update payload: each of the three whitelisted columns is either
absent (`none`, i.e. `undefined`) or present with a string value. -/
structure UpdatePayload where
  role : Option String
  company : Option String
  status : Option String
deriving Repr, DecidableEq

/-- JS truthiness of `payload.field` for an optional string field:
`undefined` and the empty string are falsy, every other string is truthy. -/
def truthy : Option String → Bool
  | some s => s ≠ ""
  | none => false

/-- One column of the spread `...(payload.f && { f: payload.f })`: the new
column value is the payload value when truthy, otherwise the old value. -/
def pickField (v : Option String) (old : String) : String :=
  match v with
  | some s => if s = "" then old else s
  | none => old

/-- The `SET` clause built by `updateJob` applied to one row: whitelisted
columns are overwritten when their payload value is truthy, and
`updated_at` is set to `CURRENT_TIMESTAMP` unconditionally. -/
def applyUpdates (now : Nat) (p : UpdatePayload) (j : Job) : Job :=
  { j with
    role := pickField p.role j.role
    company := pickField p.company j.company
    status := pickField p.status j.status
    updated_at := now }

/-- Engine scan for `UPDATE jobs SET ... WHERE id = ? AND created_by = ?
RETURNING *`: first component is the list of updated rows (the
`returning("*")` result), second is the table after the statement. -/
def updateRows (now : Nat) (jobId userId : Nat) (p : UpdatePayload) :
    List Job → List Job × List Job
  | [] => ([], [])
  | j :: rest =>
    if jobMatches jobId userId j then
      (applyUpdates now p j :: (updateRows now jobId userId p rest).1,
       applyUpdates now p j :: (updateRows now jobId userId p rest).2)
    else
      ((updateRows now jobId userId p rest).1,
       j :: (updateRows now jobId userId p rest).2)

/-- Model of `updateJob({jobId, userId}, payload)`: runs the update statement and
destructures the head of the returned rows (`undefined`, i.e. `none`, when
no row matched). -/
def updateJob (now : Nat) (db : List Job) (jobId userId : Nat)
    (p : UpdatePayload) : Option Job × List Job :=
  let r := updateRows now jobId userId p db
  (r.1.head?, r.2)

/-- Engine scan for `DELETE FROM jobs WHERE id = ? AND created_by = ?`:
first component is the number of deleted rows, second the table after. -/
def deleteRows (jobId userId : Nat) : List Job → Nat × List Job
  | [] => (0, [])
  | j :: rest =>
    if jobMatches jobId userId j then
      ((deleteRows jobId userId rest).1 + 1, (deleteRows jobId userId rest).2)
    else
      ((deleteRows jobId userId rest).1, j :: (deleteRows jobId userId rest).2)

/-- Model of `deleteJob({jobId, userId})`: deletes the rows matching id AND owner and
returns the count reported by `.del()`. -/
def deleteJob (db : List Job) (jobId userId : Nat) : Nat × List Job :=
  deleteRows jobId userId db

/-- The object literal `{ id, role, company, status, createdBy }` returned by
`createJob`: it echoes the call's arguments, so `status` is `undefined`
(`none`) when the argument was unset. -/
structure CreateJobResult where
  id : Nat
  role : String
  company : String
  status : Option String
  createdBy : Nat
deriving Repr, DecidableEq

/-- Model of `createJob({role, company, status, createdBy})`: inserts a row (the
`status` column falls back to the schema default `"pending"` when the
argument is unset) and returns the echo object with the assigned id. -/
def createJob (db : List Job) (nextId now : Nat) (role company : String)
    (status : Option String) (createdBy : Nat) :
    CreateJobResult × List Job :=
  let row : Job :=
    { id := nextId, role := role, company := company,
      status := status.getD "pending", created_by := createdBy,
      created_at := now, updated_at := now }
  ({ id := nextId, role := role, company := company, status := status,
     createdBy := createdBy }, db ++ [row])

/-- Idealised bcrypt digest: collision-free, determined by the salt and the
plaintext it was derived from.  The `ofPlain` field stands for the digest
bytes of that plaintext under that salt (the real primitive does not store
the plaintext, but the digest determines it up to bcrypt collisions, which
the ideal model excludes). -/
structure BcryptHash where
  salt : Nat
  ofPlain : String
deriving Repr, DecidableEq

/-- Model of `bcrypt.hash(plain, salt)` under the ideal-digest assumption. -/
def bcryptHash (salt : Nat) (plain : String) : BcryptHash :=
  { salt := salt, ofPlain := plain }

/-- Model of `bcrypt.compare(candidate, hash)`: re-hashes the candidate under the
hash's salt and compares digests; total, returns a boolean. -/
def bcryptCompare (candidate : String) (h : BcryptHash) : Bool :=
  bcryptHash h.salt candidate == h

/-- A row of the `users` table (schema from `User.initTable`). -/
structure User where
  id : Nat
  name : String
  email : String
  password : BcryptHash
deriving Repr, DecidableEq

/-- Model of `User.comparePassword(candidatePassword, userPassword)`: delegates to
`bcrypt.compare` and returns its boolean. -/
def comparePassword (candidatePassword : String) (userPassword : BcryptHash) :
    Bool :=
  bcryptCompare candidatePassword userPassword

/-- One row of the `getAllJobs` result set:
`jobs.*` plus `users.name AS creator_name`. -/
structure ListedJob where
  job : Job
  creator_name : String
deriving Repr, DecidableEq

/-- Model of `getAllJobs({userId})`: `SELECT jobs.*, users.name AS creator_name FROM
jobs JOIN users ON jobs.created_by = users.id WHERE created_by = ?` — the
join pairs each job with every user row whose id equals its `created_by`,
then the owner filter keeps the caller's rows. -/
def getAllJobs (db : List Job) (users : List User) (userId : Nat) :
    List ListedJob :=
  (db.flatMap fun j =>
      (users.filter fun u => j.created_by == u.id).map fun u =>
        { job := j, creator_name := u.name }).filter
    fun r => r.job.created_by == userId

/-- Storage-level rejections surfaced by the engine: a `UNIQUE` constraint
violation (the spec's `Conflict`) or a `CHECK`/length violation (the
spec's `ValidationError`). -/
inductive DBError where
  | uniqueViolation
  | checkViolation
deriving Repr, DecidableEq

/-- The `users` table together with its autoincrement counter. -/
structure UsersTable where
  rows : List User
  nextId : Nat
deriving Repr, DecidableEq

/-- The SQL pattern `email LIKE "%@%.%"`: some character `@` occurs and a
`.` occurs strictly after it. -/
def emailLike (s : String) : Bool :=
  match s.toList.dropWhile (fun c => c ≠ '@') with
  | [] => false
  | _ :: tail => tail.contains '.'

/-- The `CHECK`/length constraints of the `users` schema on a fresh row:
name length in [3, 50] and the email pattern.  (The `password` length
check applies to the stored bcrypt digest, which is always 60 characters,
so it is never violated and is not modelled.) -/
def userChecksOk (name email : String) : Bool :=
  3 ≤ name.length && name.length ≤ 50 && emailLike email

/-- The object `{ id, name, email, hashedPassword }` returned by
`createUser`. -/
structure CreatedUser where
  id : Nat
  name : String
  email : String
  hashedPassword : BcryptHash
deriving Repr, DecidableEq

/-- Model of `User.createUser({name, email, password})`: hashes the password with a
fresh salt, inserts the row and returns `{id, name, email,
hashedPassword}`; the insert is rejected by the engine when a `CHECK`
constraint fails or the `UNIQUE` email constraint is violated, and a
rejected insert leaves the table untouched. -/
def createUser (t : UsersTable) (name email password : String) (salt : Nat) :
    Except DBError (CreatedUser × UsersTable) :=
  let hashed := bcryptHash salt password
  if userChecksOk name email then
    if t.rows.any fun u => u.email == email then
      .error .uniqueViolation
    else
      .ok ({ id := t.nextId, name := name, email := email,
             hashedPassword := hashed },
           { rows := t.rows ++
               [{ id := t.nextId, name := name, email := email,
                  password := hashed }],
             nextId := t.nextId + 1 })
  else
    .error .checkViolation

/-- Model of `User.findByEmail(email)`: first row with that email, or `undefined`. -/
def findByEmail (t : UsersTable) (email : String) : Option User :=
  t.rows.find? fun u => u.email == email

/-- Process environment as consumed by `createJWT`. -/
structure Env where
  JWT_SECRET : String
deriving Repr, DecidableEq

/-- One JSON claim value inside a JWT payload. -/
inductive ClaimValue where
  | nat : Nat → ClaimValue
  | str : String → ClaimValue
deriving Repr, DecidableEq

/-- A signed token: the encoded payload as JSON key–value pairs plus the
key the signature was made with (standing for the HMAC over the encoded
payload). -/
structure SignedToken where
  claims : List (String × ClaimValue)
  signedWith : String
deriving Repr, DecidableEq

/-- Model of `User.createJWT(user)`: signs the object literal
`{userId: user.id, name: user.name}` with `process.env.JWT_SECRET`, valid
for 30 days (`expiresIn: "30d"`, i.e. 2592000 seconds) from issuance; the
library adds the `iat` and `exp` timestamp claims. -/
def createJWT (env : Env) (now : Nat) (user : User) : SignedToken :=
  { claims := [("userId", .nat user.id), ("name", .str user.name),
               ("iat", .nat now), ("exp", .nat (now + 30 * 24 * 60 * 60))],
    signedWith := env.JWT_SECRET }

/-- The column layout `User.initTable` creates for `users`, as written in
its `createTable` callback. -/
structure UsersSchemaDef where
  idPrimary : Bool
  nameMaxWidth : Nat
  nameMinLen : Nat
  nameMaxLen : Nat
  emailUnique : Bool
  emailCheck : String
  passwordMinLen : Nat
deriving Repr, DecidableEq

/-- The `users` schema as `User.initTable` defines it. -/
def usersSchemaDef : UsersSchemaDef :=
  { idPrimary := true, nameMaxWidth := 50, nameMinLen := 3, nameMaxLen := 50,
    emailUnique := true, emailCheck := "email LIKE \"%@%.%\"",
    passwordMinLen := 6 }

/-- The column layout `Job.initTable` creates for `jobs`, as written in its
`createTable` callback. -/
structure JobsSchemaDef where
  idPrimary : Bool
  roleMaxLen : Nat
  companyMaxLen : Nat
  statusEnum : List String
  statusDefault : String
  createdByReferences : String
  createdByInTable : String
  onDelete : String
  createdAtDefaultNow : Bool
  updatedAtDefaultNow : Bool
deriving Repr, DecidableEq

/-- The `jobs` schema as `Job.initTable` defines it. -/
def jobsSchemaDef : JobsSchemaDef :=
  { idPrimary := true, roleMaxLen := 100, companyMaxLen := 50,
    statusEnum := ["pending", "interview", "decline"],
    statusDefault := "pending", createdByReferences := "id",
    createdByInTable := "users", onDelete := "CASCADE",
    createdAtDefaultNow := true, updatedAtDefaultNow := true }

/-- The schema catalog: which tables exist and with which definition
(`none` = `hasTable` is false). -/
structure SchemaState where
  users : Option UsersSchemaDef
  jobs : Option JobsSchemaDef
deriving Repr, DecidableEq

/-- Model of `User.initTable()`: `hasTable("users")` then `createTable` only when the
table is absent. -/
def usersInitTable (s : SchemaState) : SchemaState :=
  if s.users.isSome then s else { s with users := some usersSchemaDef }

/-- Model of `Job.initTable()`: `hasTable("jobs")` then `createTable` only when the
table is absent. -/
def jobsInitTable (s : SchemaState) : SchemaState :=
  if s.jobs.isSome then s else { s with jobs := some jobsSchemaDef }

/-- Sample job row: the spec scenario's job, owned by account 1. -/
def jobA : Job :=
  { id := 1, role := "Engineer", company := "Acme", status := "pending",
    created_by := 1, created_at := 0, updated_at := 0 }

/-- Sample account row matching the spec scenario. -/
def alice : User :=
  { id := 1, name := "Alice", email := "a@b.com",
    password := bcryptHash 7 "secret1" }

/-- The empty update payload: `{}` in JS, every field `undefined`. -/
def emptyPayload : UpdatePayload :=
  { role := none, company := none, status := none }

/-- A mixed update payload: truthy `role`, falsy-but-present `company`
(empty string), absent `status`. -/
def partialP : UpdatePayload :=
  { role := some "Dev", company := some "", status := none }

/-! ## Helper lemmas -/

/-- An update statement whose `WHERE` matches no row returns no row and
leaves the table as it was. -/
theorem updateRows_nomatch (now jobId userId : Nat) (p : UpdatePayload)
    (db : List Job) (h : ∀ j ∈ db, jobMatches jobId userId j = false) :
    updateRows now jobId userId p db = ([], db) := by
  induction db with
  | nil => rfl
  | cons j rest ih =>
    have hj : jobMatches jobId userId j = false := h j (List.mem_cons_self j rest)
    have hrest := ih fun x hx => h x (List.mem_cons_of_mem j hx)
    simp [updateRows, hj, hrest]

/-- A delete statement whose `WHERE` matches no row reports count 0 and
leaves the table as it was. -/
theorem deleteRows_nomatch (jobId userId : Nat) (db : List Job)
    (h : ∀ j ∈ db, jobMatches jobId userId j = false) :
    deleteRows jobId userId db = (0, db) := by
  induction db with
  | nil => rfl
  | cons j rest ih =>
    have hj : jobMatches jobId userId j = false := h j (List.mem_cons_self j rest)
    have hrest := ih fun x hx => h x (List.mem_cons_of_mem j hx)
    simp [deleteRows, hj, hrest]

/-- The head of the rows returned by the update statement is the updated
image of the first row the `WHERE` clause matches. -/
theorem updateRows_head (now jobId userId : Nat) (p : UpdatePayload)
    (db : List Job) (j : Job)
    (h : getSingleJob db jobId userId = some j) :
    (updateRows now jobId userId p db).1.head? =
      some (applyUpdates now p j) := by
  induction db with
  | nil => simp [getSingleJob] at h
  | cons a rest ih =>
    by_cases ha : jobMatches jobId userId a = true
    · have : a = j := by
        simp [getSingleJob, List.find?_cons, ha] at h
        exact h
      subst this
      simp [updateRows, ha]
    · have ha' : jobMatches jobId userId a = false := by
        simpa using ha
      have h' : getSingleJob rest jobId userId = some j := by
        simpa [getSingleJob, List.find?_cons, ha'] using h
      simp [updateRows, ha', ih h']

/-- The table after an update statement: matching rows are rewritten by the
`SET` clause, every other row is untouched, positions preserved. -/
theorem updateRows_snd (now jobId userId : Nat) (p : UpdatePayload)
    (db : List Job) :
    (updateRows now jobId userId p db).2 =
      db.map fun j =>
        if jobMatches jobId userId j then applyUpdates now p j else j := by
  induction db with
  | nil => rfl
  | cons a rest ih =>
    by_cases ha : jobMatches jobId userId a = true
    · simp [updateRows, ha, ih]
    · have ha' : jobMatches jobId userId a = false := by simpa using ha
      simp [updateRows, ha', ih]

/-- The delete statement reports one deletion per matching row and keeps
exactly the non-matching rows, in order. -/
theorem deleteRows_eq (jobId userId : Nat) (db : List Job) :
    deleteRows jobId userId db =
      ((db.filter (jobMatches jobId userId)).length,
       db.filter fun j => ! jobMatches jobId userId j) := by
  induction db with
  | nil => rfl
  | cons a rest ih =>
    by_cases ha : jobMatches jobId userId a = true
    · simp [deleteRows, ha, ih, List.filter_cons]
    · have ha' : jobMatches jobId userId a = false := by simpa using ha
      simp [deleteRows, ha', ih, List.filter_cons]

/-- Under the primary-key invariant (pairwise distinct ids) the rows
matching an id-and-owner `WHERE` clause reduce to the one found row. -/
theorem filter_match_singleton (jobId userId : Nat) (db : List Job) (j : Job)
    (hpk : db.Pairwise fun a b => a.id ≠ b.id) (hmem : j ∈ db)
    (hj : jobMatches jobId userId j = true) :
    db.filter (jobMatches jobId userId) = [j] := by
  induction db with
  | nil => simp at hmem
  | cons a rest ih =>
    have hpk' := (List.pairwise_cons.mp hpk).2
    have hane := (List.pairwise_cons.mp hpk).1
    rcases List.mem_cons.mp hmem with rfl | hmemr
    · have hrest : ∀ x ∈ rest, jobMatches jobId userId x = false := by
        intro x hx
        have hne : j.id ≠ x.id := hane x hx
        have hid : j.id = jobId := by
          simp [jobMatches] at hj
          exact hj.1
        simp [jobMatches]
        intro hxid
        exact absurd (hid ▸ hxid) (fun hh => hne hh.symm)
      have hnil : rest.filter (jobMatches jobId userId) = [] :=
        List.filter_eq_nil_iff.mpr (by intro x hx; simp [hrest x hx])
      simp [List.filter_cons, hj, hnil]
    · have hja : jobMatches jobId userId a = false := by
        have hne : a.id ≠ j.id := hane j hmemr
        have hid : j.id = jobId := by
          simp [jobMatches] at hj
          exact hj.1
        simp [jobMatches]
        intro haid
        exact absurd (haid.trans hid.symm) hne
      simp [List.filter_cons, hja, ih hpk' hmemr]

/-- Under the users primary-key invariant the join rows for one job reduce
to the single owning user. -/
theorem filter_user_singleton (k : Nat) (users : List User) (u : User)
    (hpk : users.Pairwise fun a b => a.id ≠ b.id) (hmem : u ∈ users)
    (hk : u.id = k) :
    users.filter (fun v => k == v.id) = [u] := by
  induction users with
  | nil => simp at hmem
  | cons a rest ih =>
    have hane := (List.pairwise_cons.mp hpk).1
    have hpk' := (List.pairwise_cons.mp hpk).2
    rcases List.mem_cons.mp hmem with rfl | hmemr
    · have hnil : rest.filter (fun v => k == v.id) = [] := by
        apply List.filter_eq_nil_iff.mpr
        intro x hx
        have hne : u.id ≠ x.id := hane x hx
        simp [← hk]
        exact hne
      simp [List.filter_cons, hk, hnil]
    · have hka : (k == a.id) = false := by
        have hne : a.id ≠ u.id := hane u hmemr
        simp [← hk]
        exact fun hh => hne hh.symm
      simp [List.filter_cons, hka, ih hpk' hmemr]

/-- Unfolding of `getAllJobs` over the first job row. -/
theorem getAllJobs_cons (a : Job) (db : List Job) (users : List User)
    (userId : Nat) :
    getAllJobs (a :: db) users userId =
      ((users.filter fun v => a.created_by == v.id).map
          (fun v => { job := a, creator_name := v.name : ListedJob })).filter
        (fun r => r.job.created_by == userId) ++ getAllJobs db users userId := by
  simp [getAllJobs, List.filter_append]

/-- With the owner present in `users` and ids pairwise distinct, the
list-plus-join is exactly the owner's jobs tagged with the owner's name. -/
theorem getAllJobs_eq (db : List Job) (users : List User) (userId : Nat)
    (u : User) (hpk : users.Pairwise fun a b => a.id ≠ b.id)
    (hmem : u ∈ users) (hid : u.id = userId) :
    getAllJobs db users userId =
      (db.filter fun j => j.created_by == userId).map
        fun j => { job := j, creator_name := u.name } := by
  induction db with
  | nil => rfl
  | cons a rest ih =>
    rw [getAllJobs_cons]
    by_cases hca : a.created_by = userId
    · have hsing : users.filter (fun v => a.created_by == v.id) = [u] :=
        filter_user_singleton a.created_by users u hpk hmem
          (hid.trans hca.symm)
      rw [hsing]
      simp [hca, List.filter_cons, ih]
    · have hnil :
          ((users.filter fun v => a.created_by == v.id).map
              (fun v => { job := a, creator_name := v.name : ListedJob })).filter
            (fun r => r.job.created_by == userId) = [] := by
        apply List.filter_eq_nil_iff.mpr
        intro r hr
        rcases List.mem_map.mp hr with ⟨v, hv, rfl⟩
        simp [hca]
      have hca' : (a.created_by == userId) = false := by
        simpa using hca
      simp [hnil, List.filter_cons, hca', ih]

/-! ## Claim theorems -/

/-- C1: every Job store read/update/delete operation filters by
`created_by == caller`: when every row with the given id is owned by
account A and B is a different account, `getSingleJob` for B returns the
same explicit not-found signal (`none`) as for a nonexistent id,
`updateJob` and `deleteJob` for B change nothing and report no match, and
`getAllJobs` for B only ever surfaces rows owned by B. -/
theorem ownerScope_isolates_other_accounts
    (db : List Job) (users : List User) (jobId A B : Nat)
    (now : Nat) (p : UpdatePayload)
    (hAB : A ≠ B)
    (hown : ∀ j ∈ db, j.id = jobId → j.created_by = A) :
    getSingleJob db jobId B = none ∧
    updateJob now db jobId B p = (none, db) ∧
    deleteJob db jobId B = (0, db) ∧
    ∀ r ∈ getAllJobs db users B, r.job.created_by = B := by
  have hmatch : ∀ j ∈ db, jobMatches jobId B j = false := by
    intro j hj
    by_cases hid : j.id = jobId
    · have hA : j.created_by = A := hown j hj hid
      simpa [jobMatches, hid, hA] using hAB
    · simp [jobMatches, hid]
  refine ⟨?_, ?_, ?_, ?_⟩
  · exact List.find?_eq_none.mpr fun j hj => by simp [hmatch j hj]
  · simp [updateJob, updateRows_nomatch now jobId B p db hmatch]
  · simp [deleteJob, deleteRows_nomatch jobId B db hmatch]
  · intro r hr
    simp only [getAllJobs, List.mem_filter] at hr
    simpa using hr.2

/-- C1 witness: account 2 gets the not-found signal and cannot mutate
account 1's job. -/
theorem ownerScope_isolates_other_accounts_witness :
    getSingleJob [jobA] 1 2 = none ∧
    updateJob 9 [jobA] 1 2 emptyPayload = (none, [jobA]) ∧
    deleteJob [jobA] 1 2 = (0, [jobA]) := by
  have h := ownerScope_isolates_other_accounts [jobA] [alice] 1 1 2 9
    emptyPayload (by decide) (by decide)
  exact ⟨h.1, h.2.1, h.2.2.1⟩

/-- C2: on an existing owned record, `updateJob` applies exactly the
whitelisted fields whose payload value is truthy — a present-but-falsy
field (e.g. the empty string) leaves its column unchanged — and always
refreshes `updated_at` to the current time, leaving id, owner and
`created_at` intact. -/
theorem updateJob_truthy_fields_only
    (now : Nat) (db : List Job) (jobId userId : Nat) (p : UpdatePayload)
    (j : Job) (h : getSingleJob db jobId userId = some j) :
    ∃ j1, (updateJob now db jobId userId p).1 = some j1 ∧
      (∀ s, p.role = some s → s ≠ "" → j1.role = s) ∧
      (truthy p.role = false → j1.role = j.role) ∧
      (∀ s, p.company = some s → s ≠ "" → j1.company = s) ∧
      (truthy p.company = false → j1.company = j.company) ∧
      (∀ s, p.status = some s → s ≠ "" → j1.status = s) ∧
      (truthy p.status = false → j1.status = j.status) ∧
      j1.updated_at = now ∧
      j1.id = j.id ∧ j1.created_by = j.created_by ∧
      j1.created_at = j.created_at := by
  refine ⟨applyUpdates now p j,
    by simp [updateJob, updateRows_head now jobId userId p db j h],
    ?_, ?_, ?_, ?_, ?_, ?_, rfl, rfl, rfl, rfl⟩
  · intro s hs hne
    simp [applyUpdates, pickField, hs, hne]
  · intro hf
    cases hv : p.role with
    | none => simp [applyUpdates, pickField, hv]
    | some s =>
      have hs : s = "" := by simpa [truthy, hv] using hf
      simp [applyUpdates, pickField, hv, hs]
  · intro s hs hne
    simp [applyUpdates, pickField, hs, hne]
  · intro hf
    cases hv : p.company with
    | none => simp [applyUpdates, pickField, hv]
    | some s =>
      have hs : s = "" := by simpa [truthy, hv] using hf
      simp [applyUpdates, pickField, hv, hs]
  · intro s hs hne
    simp [applyUpdates, pickField, hs, hne]
  · intro hf
    cases hv : p.status with
    | none => simp [applyUpdates, pickField, hv]
    | some s =>
      have hs : s = "" := by simpa [truthy, hv] using hf
      simp [applyUpdates, pickField, hv, hs]

/-- C2 witness: a payload with truthy `role`, empty-string `company` and
absent `status` updates only `role` and `updated_at`. -/
theorem updateJob_truthy_fields_only_witness :
    ((updateJob 9 [jobA] 1 1 partialP).1.map Job.role = some "Dev") ∧
    ((updateJob 9 [jobA] 1 1 partialP).1.map Job.company = some "Acme") ∧
    ((updateJob 9 [jobA] 1 1 partialP).1.map Job.status = some "pending") ∧
    ((updateJob 9 [jobA] 1 1 partialP).1.map Job.updated_at = some 9) := by
  have h := updateJob_truthy_fields_only 9 [jobA] 1 1 partialP jobA (by rfl)
  rcases h with ⟨j1, h1, h2, h3, h4, h5, h6, h7, h8, h9, h10, h11⟩
  rw [h1]
  simp [h2 "Dev" rfl (by decide), h5 (by decide), h7 (by decide), h8, jobA]

/-- C3 counterexample: `createJob` with the status argument unset stores a
row whose status is `"pending"`, but the record it returns echoes the
arguments, so its `status` is unset (`none`), not `"pending"`. -/
theorem createJob_echo_status_counterexample :
    (createJob [] 1 0 "Engineer" "Acme" none 7).1.status = none ∧
    ¬ (createJob [] 1 0 "Engineer" "Acme" none 7).1.status = some "pending" ∧
    (createJob [] 1 0 "Engineer" "Acme" none 7).2 =
      [{ id := 1, role := "Engineer", company := "Acme", status := "pending",
         created_by := 7, created_at := 0, updated_at := 0 }] := by
  refine ⟨rfl, by simp [createJob], rfl⟩

/-- C3 amended: `createJob` with the status argument unset inserts a row
whose status column defaults to `"pending"`, and returns an echo of the
inputs together with the assigned id; the returned record's status is
unset (`undefined`), not `"pending"`. -/
theorem createJob_default_row_echo_result
    (db : List Job) (nextId now : Nat) (role company : String)
    (createdBy : Nat) :
    ∃ row : Job,
      (createJob db nextId now role company none createdBy).2 = db ++ [row] ∧
      row.status = "pending" ∧ row.id = nextId ∧ row.role = role ∧
      row.company = company ∧ row.created_by = createdBy ∧
      (createJob db nextId now role company none createdBy).1 =
        { id := nextId, role := role, company := company, status := none,
          createdBy := createdBy } :=
  ⟨_, rfl, rfl, rfl, rfl, rfl, rfl, rfl⟩

/-- C4 counterexample: the token payload carries the account id under the
JSON key `userId`, not `accountId` — decoding a concrete issued token
finds nothing under `accountId`. -/
theorem createJWT_key_counterexample :
    ((createJWT { JWT_SECRET := "shh" } 0 alice).claims.lookup "accountId"
      = none) ∧
    ((createJWT { JWT_SECRET := "shh" } 0 alice).claims.lookup "userId"
      = some (.nat 1)) :=
  ⟨rfl, rfl⟩

/-- C4 amended: `createJWT` signs a payload carrying the account id under
the `userId` claim (not `accountId`) and the name under `name`, with a
fixed 30-day validity window (`expiresIn: "30d"`, 2592000 seconds) from
issuance, under the shared secret from the environment
(`process.env.JWT_SECRET`). -/
theorem createJWT_claims_and_window (env : Env) (now : Nat) (u : User) :
    ((createJWT env now u).claims.lookup "userId" = some (.nat u.id)) ∧
    ((createJWT env now u).claims.lookup "name" = some (.str u.name)) ∧
    ((createJWT env now u).claims.lookup "accountId" = none) ∧
    ((createJWT env now u).claims.lookup "iat" = some (.nat now)) ∧
    ((createJWT env now u).claims.lookup "exp" =
      some (.nat (now + 30 * 24 * 60 * 60))) ∧
    (createJWT env now u).signedWith = env.JWT_SECRET :=
  ⟨rfl, rfl, rfl, rfl, rfl, rfl⟩

/-- C5: `comparePassword` returns true exactly when the stored hash was
derived (under some salt) from that exact plaintext; it is a total boolean
function of its two arguments. -/
theorem comparePassword_iff_derived (candidate : String) (h : BcryptHash) :
    comparePassword candidate h = true ↔
      ∃ salt, bcryptHash salt candidate = h := by
  constructor
  · intro hc
    exact ⟨h.salt, by simpa [comparePassword, bcryptCompare, bcryptHash] using hc⟩
  · rintro ⟨salt, rfl⟩
    simp [comparePassword, bcryptCompare, bcryptHash]

/-- C6: email uniqueness is enforced at storage level: with a fresh email
the first `createUser` succeeds and appends the new row, and a second
`createUser` with the same email (any name/password) is rejected with the
unique-constraint violation, producing no new table state — the first
account's row is still in place. -/
theorem createUser_duplicate_email_conflict
    (t : UsersTable) (n1 e p1 : String) (s1 : Nat) (n2 p2 : String)
    (s2 : Nat)
    (hchecks1 : userChecksOk n1 e = true)
    (hchecks2 : userChecksOk n2 e = true)
    (hfresh : ∀ u ∈ t.rows, u.email ≠ e) :
    createUser t n1 e p1 s1 =
      .ok ({ id := t.nextId, name := n1, email := e,
             hashedPassword := bcryptHash s1 p1 },
           { rows := t.rows ++ [{ id := t.nextId, name := n1, email := e,
                                  password := bcryptHash s1 p1 }],
             nextId := t.nextId + 1 }) ∧
    createUser
      { rows := t.rows ++ [{ id := t.nextId, name := n1, email := e,
                             password := bcryptHash s1 p1 }],
        nextId := t.nextId + 1 } n2 e p2 s2 =
      .error .uniqueViolation := by
  have hany : (t.rows.any fun u => u.email == e) = false := by
    rw [List.any_eq_false]
    intro u hu
    simpa using hfresh u hu
  constructor
  · simp [createUser, hchecks1, hany]
  · have hany2 :
        ((t.rows ++ [({ id := t.nextId, name := n1, email := e,
                        password := bcryptHash s1 p1 } : User)]).any
          fun u => u.email == e) = true := by
      simp
    simp [createUser, hchecks2, hany2]

/-- C6 witness: registering Alice then Bob under the same email — the
second insert fails with the unique violation. -/
theorem createUser_duplicate_email_conflict_witness :
    createUser { rows := [], nextId := 1 } "Alice" "a@b.com" "secret1" 7 =
      .ok ({ id := 1, name := "Alice", email := "a@b.com",
             hashedPassword := bcryptHash 7 "secret1" },
           { rows := [{ id := 1, name := "Alice", email := "a@b.com",
                        password := bcryptHash 7 "secret1" }],
             nextId := 2 }) ∧
    createUser { rows := [{ id := 1, name := "Alice", email := "a@b.com",
                            password := bcryptHash 7 "secret1" }],
                 nextId := 2 } "Bob" "a@b.com" "secret2" 8 =
      .error .uniqueViolation := by
  have h := createUser_duplicate_email_conflict
    { rows := [], nextId := 1 } "Alice" "a@b.com" "secret1" 7 "Bob" "secret2"
    8 (by decide) (by decide) (by simp)
  exact h

/-- C7: under the primary-key invariant (pairwise distinct row ids),
`deleteJob` reports at most one deletion; when the owned record exists it
reports exactly 1, removes that record, and every repeated call with the
same arguments afterwards reports 0 and changes nothing. -/
theorem deleteJob_once_then_zero (db : List Job) (jobId userId : Nat)
    (j : Job) (hpk : db.Pairwise fun a b => a.id ≠ b.id) :
    (deleteJob db jobId userId).1 ≤ 1 ∧
    (getSingleJob db jobId userId = some j →
      (deleteJob db jobId userId).1 = 1 ∧
      j ∉ (deleteJob db jobId userId).2 ∧
      deleteJob (deleteJob db jobId userId).2 jobId userId =
        (0, (deleteJob db jobId userId).2)) := by
  constructor
  · cases hfind : getSingleJob db jobId userId with
    | none =>
      have hnone := List.find?_eq_none.mp hfind
      have hz := deleteRows_nomatch jobId userId db
        (by intro x hx; simpa using hnone x hx)
      simp [deleteJob, hz]
    | some j2 =>
      have hsing := filter_match_singleton jobId userId db j2 hpk
        (List.mem_of_find?_eq_some hfind) (List.find?_some hfind)
      simp [deleteJob, deleteRows_eq, hsing]
  · intro hfound
    have hmem : j ∈ db := List.mem_of_find?_eq_some hfound
    have hmatchj : jobMatches jobId userId j = true := List.find?_some hfound
    have hsing := filter_match_singleton jobId userId db j hpk hmem hmatchj
    have h2 : (deleteJob db jobId userId).2 =
        db.filter fun x => ! jobMatches jobId userId x := by
      simp [deleteJob, deleteRows_eq]
    have hno : ∀ x ∈ (deleteJob db jobId userId).2,
        jobMatches jobId userId x = false := by
      intro x hx
      rw [h2] at hx
      rcases List.mem_filter.mp hx with ⟨-, hxm⟩
      simpa using hxm
    refine ⟨?_, ?_, ?_⟩
    · simp [deleteJob, deleteRows_eq, hsing]
    · intro hjin
      have := hno j hjin
      rw [hmatchj] at this
      simp at this
    · have hz := deleteRows_nomatch jobId userId (deleteJob db jobId userId).2 hno
      simpa [deleteJob] using hz

/-- C7 witness: deleting the sample owned job reports 1, removes it, and
deleting again reports 0. -/
theorem deleteJob_once_then_zero_witness :
    (deleteJob [jobA] 1 1).1 = 1 ∧
    jobA ∉ (deleteJob [jobA] 1 1).2 ∧
    deleteJob (deleteJob [jobA] 1 1).2 1 1 = (0, (deleteJob [jobA] 1 1).2) := by
  have h := deleteJob_once_then_zero [jobA] 1 1 jobA (by simp)
  exact h.2 (by rfl)

/-- C8: with the calling account present in `users` and account ids
pairwise distinct, `getAllJobs` returns exactly the job rows whose
`created_by` equals the caller, each paired with the owner's display name
as `creator_name` (no order is imposed beyond the storage scan). -/
theorem getAllJobs_owner_enriched (db : List Job) (users : List User)
    (userId : Nat) (u : User)
    (hpk : users.Pairwise fun a b => a.id ≠ b.id)
    (hmem : u ∈ users) (hid : u.id = userId) :
    getAllJobs db users userId =
      (db.filter fun j => j.created_by == userId).map
        (fun j => { job := j, creator_name := u.name }) ∧
    ((getAllJobs db users userId).map fun r => r.job) =
      db.filter (fun j => j.created_by == userId) ∧
    ∀ r ∈ getAllJobs db users userId,
      r.job.created_by = userId ∧ r.creator_name = u.name := by
  have he := getAllJobs_eq db users userId u hpk hmem hid
  refine ⟨he, ?_, ?_⟩
  · rw [he]
    simp [List.map_map, Function.comp_def]
  · intro r hr
    rw [he] at hr
    rcases List.mem_map.mp hr with ⟨j, hj, rfl⟩
    exact ⟨by simpa using (List.mem_filter.mp hj).2, rfl⟩

/-- C8 witness: the spec scenario — Alice's single job is listed exactly
once with `creator_name = "Alice"`. -/
theorem getAllJobs_owner_enriched_witness :
    getAllJobs [jobA] [alice] 1 = [{ job := jobA, creator_name := "Alice" }] := by
  have h := getAllJobs_owner_enriched [jobA] [alice] 1 alice (by simp)
    (by simp) rfl
  rw [h.1]
  rfl

/-- C9: `initTable` of both stores is idempotent create-if-absent on the
schema catalog: running it twice equals running it once, and when the
table already exists the catalog is left entirely unchanged. -/
theorem initTable_idempotent_create_if_absent (s : SchemaState)
    (du : UsersSchemaDef) (dj : JobsSchemaDef) :
    usersInitTable (usersInitTable s) = usersInitTable s ∧
    jobsInitTable (jobsInitTable s) = jobsInitTable s ∧
    (s.users = some du → usersInitTable s = s) ∧
    (s.jobs = some dj → jobsInitTable s = s) := by
  refine ⟨?_, ?_, fun h => by simp [usersInitTable, h],
    fun h => by simp [jobsInitTable, h]⟩
  · by_cases h : s.users.isSome
    · simp [usersInitTable, h]
    · simp [usersInitTable, h]
  · by_cases h : s.jobs.isSome
    · simp [jobsInitTable, h]
    · simp [jobsInitTable, h]

/-- C9 witness: both initializers, from the empty catalog and from an
existing catalog. -/
theorem initTable_idempotent_create_if_absent_witness :
    usersInitTable (usersInitTable { users := none, jobs := none }) =
      usersInitTable { users := none, jobs := none } ∧
    jobsInitTable (jobsInitTable { users := none, jobs := none }) =
      jobsInitTable { users := none, jobs := none } ∧
    usersInitTable { users := some usersSchemaDef, jobs := some jobsSchemaDef } =
      { users := some usersSchemaDef, jobs := some jobsSchemaDef } ∧
    jobsInitTable { users := some usersSchemaDef, jobs := some jobsSchemaDef } =
      { users := some usersSchemaDef, jobs := some jobsSchemaDef } := by
  have h1 := initTable_idempotent_create_if_absent
    { users := none, jobs := none } usersSchemaDef jobsSchemaDef
  have h2 := initTable_idempotent_create_if_absent
    { users := some usersSchemaDef, jobs := some jobsSchemaDef }
    usersSchemaDef jobsSchemaDef
  exact ⟨h1.1, h1.2.1, h2.2.2.1 rfl, h2.2.2.2 rfl⟩

/-- C10: `updateJob` and `deleteJob` touch only the row matching both id
and owner: the updated table has the same length with every non-matching
position unchanged, the deleted table is exactly the non-matching rows in
order, and when no row matches both, the table is entirely unchanged,
`updateJob` returns the not-found signal (`none`) and `deleteJob` returns
0. -/
theorem updateJob_deleteJob_frame (now : Nat) (db : List Job)
    (jobId userId : Nat) (p : UpdatePayload) :
    (updateJob now db jobId userId p).2.length = db.length ∧
    (∀ i : Nat, ∀ j : Job, db[i]? = some j →
      jobMatches jobId userId j = false →
      (updateJob now db jobId userId p).2[i]? = some j) ∧
    (deleteJob db jobId userId).2 =
      db.filter (fun j => ! jobMatches jobId userId j) ∧
    ((∀ j ∈ db, jobMatches jobId userId j = false) →
      updateJob now db jobId userId p = (none, db) ∧
      deleteJob db jobId userId = (0, db)) := by
  have hsnd := updateRows_snd now jobId userId p db
  refine ⟨?_, ?_, ?_, ?_⟩
  · simp [updateJob, hsnd]
  · intro i j hget hm
    simp [updateJob, hsnd, List.getElem?_map, hget, hm]
  · simp [deleteJob, deleteRows_eq]
  · intro hno
    exact ⟨by simp [updateJob, updateRows_nomatch now jobId userId p db hno],
           by simp [deleteJob, deleteRows_nomatch jobId userId db hno]⟩

/-- C10 witness: a call aimed at another account's id leaves the sample
table untouched at every position and reports no match. -/
theorem updateJob_deleteJob_frame_witness :
    (updateJob 9 [jobA] 1 2 emptyPayload).2[0]? = some jobA ∧
    (deleteJob [jobA] 1 2).2 = [jobA] ∧
    updateJob 9 [jobA] 1 2 emptyPayload = (none, [jobA]) ∧
    deleteJob [jobA] 1 2 = (0, [jobA]) := by
  have h := updateJob_deleteJob_frame 9 [jobA] 1 2 emptyPayload
  have hno : ∀ j ∈ [jobA], jobMatches 1 2 j = false := by decide
  refine ⟨h.2.1 0 jobA rfl (by decide), ?_, (h.2.2.2 hno).1, (h.2.2.2 hno).2⟩
  · rw [h.2.2.1]
    rfl
